import Mathlib

/-!
# Lock_and_Release — Soroban escrow contract, shallow embedding

A shallow embedding of the active contract in
`src/contracts/lock_release/src/lib.rs` (the uncommented third version,
`LockAndReleaseContract` with entry points `initialize`, `add_admin`,
`remove_admin`, `lock`, `release`).

Modelling conventions:
* Soroban `Address` values are abstract identifiers (`Nat`).
* `i128` values are `Int`; the checked arithmetic of the contract build is
  made explicit with `checkedMul`/`checkedSub`, which abort (overflow panic)
  when a result leaves the `i128` range.  Rust's `/` on `i128` truncates
  toward zero, which is `Int.tdiv`.
* Instance storage is a record with one field per `DataKey` constructor.
* The host aborts a call atomically on any failure, discarding all writes;
  an entry point therefore returns `Except CallError Outcome`, and an error
  means the pre-call state and balances survive unchanged.
* External collaborators follow §6 of the design document: `require_auth`
  succeeds exactly for the addresses that authorized the call, and the
  fungible-token service's `transfer(from, to, amount)` fails exactly when
  the sender's balance is below `amount`, moving the funds otherwise;
  `balance(who)` is a pure query.
* Each entry point also records its ordered trace of externally visible
  actions (storage writes, transfers, balance queries, event publishes) so
  that ordering properties of the source can be stated.
-/

namespace LockRelease

/-- Abstract Soroban address. -/
abbrev Addr := Nat

/-- Soroban `Bytes` (the `dest_chain` argument). -/
abbrev SorobanBytes := List Nat

/-- The `DataKey` enum of the active contract: its complete set of instance
storage keys. -/
inductive DataKey
  | Init
  | Owner
  | Admin
  | LockData
  | Config
  deriving DecidableEq, Repr, Fintype

/-- The Rust-source name of each `DataKey` constructor. -/
def dataKeyName : DataKey → String
  | .Init => "Init"
  | .Owner => "Owner"
  | .Admin => "Admin"
  | .LockData => "LockData"
  | .Config => "Config"

/-- The names of the `pub fn`s in the active `#[contractimpl]` block: the
contract's entire public call surface. -/
def contractEntryPoints : List String :=
  ["initialize", "add_admin", "remove_admin", "lock", "release"]

/-- The `LockData` struct. -/
structure LockData where
  user_address : Addr
  dest_token : String
  from_token : Addr
  in_amount : Int
  swaped_amount : Int
  recipient_address : String
  dest_chain : SorobanBytes
  deriving DecidableEq, Repr

/-- The `AdminData` struct. -/
structure AdminData where
  admin_address : Addr
  deriving DecidableEq, Repr

/-- The `Config` struct. -/
structure Config where
  fee_percentage : Int
  deriving DecidableEq, Repr

/-- The contract's instance storage, one field per `DataKey`.  `Init` is a
unit marker, so it is a `Bool` (present/absent). -/
structure State where
  init : Bool
  owner : Option Addr
  admin : Option AdminData
  config : Option Config
  lockData : Option LockData
  deriving DecidableEq, Repr

/-- The completely fresh instance: no key present. -/
def State.fresh : State :=
  { init := false, owner := none, admin := none, config := none, lockData := none }

/-- The `ScErrorCode`s the contract raises via `panic_with_error`
(all with `ScErrorType::Contract`). -/
inductive ContractError
  | ExistingValue
  | InvalidAction
  | MissingValue
  deriving DecidableEq, Repr

/-- How a call can abort: a categorized contract error
(`env.panic_with_error`), a failed `require_auth`, a failed token
transfer, an `Option::unwrap` on a missing storage entry (an uncategorized
panic), or checked-arithmetic overflow. -/
inductive CallError
  | contractErr : ContractError → CallError
  | authFailure : Addr → CallError
  | tokenFailure : CallError
  | unwrapPanic : CallError
  | overflowPanic : CallError
  deriving DecidableEq, Repr

/-- Events published by the contract (topics and payload collapsed into one
constructor per event kind, keeping every field the source publishes). -/
inductive Event
  | adminAdded (admin : Addr)
  | adminRemoved
  | lockEvent (user : Addr) (dest_token : String) (in_amount swaped_amount : Int)
      (payload : LockData)
  | releaseEvent (user : Addr) (destination_token : Addr) (amount : Int)
  deriving DecidableEq, Repr

/-- Externally visible actions of a call, in execution order. -/
inductive Effect
  | setKey (k : DataKey)
  | removeKey (k : DataKey)
  | transfer (token src dst : Addr) (amount : Int)
  | balanceQuery (token holder : Addr)
  | publish (e : Event)
  deriving DecidableEq, Repr

/-- Token balances: token address → holder address → balance. -/
abbrev Balances := Addr → Addr → Int

/-- Per-call environment: which addresses authorized the call
(`require_auth` succeeds exactly on these) and the contract's own address
(`env.current_contract_address()`). -/
structure Ctx where
  authorized : Addr → Bool
  contractAddr : Addr

/-- Result of a call that ran to completion. -/
structure Outcome where
  state : State
  balances : Balances
  effects : List Effect

/-- `i128::MIN`. -/
def i128Min : Int := -(2 ^ 127)

/-- `i128::MAX`. -/
def i128Max : Int := 2 ^ 127 - 1

/-- Whether an integer fits in `i128`. -/
def inI128 (x : Int) : Bool := decide (i128Min ≤ x ∧ x ≤ i128Max)

/-- Checked `i128` multiplication: `none` is the overflow panic of the
contract build. -/
def checkedMul (a b : Int) : Option Int :=
  if inI128 (a * b) then some (a * b) else none

/-- Checked `i128` subtraction. -/
def checkedSub (a b : Int) : Option Int :=
  if inI128 (a - b) then some (a - b) else none

/-- The fungible-token service's `transfer(from, to, amount)` on the stated
interface: it fails the call when the sender's balance is below `amount`
and otherwise debits the sender and credits the recipient. -/
def tokenTransfer (bal : Balances) (token src dst : Addr) (amount : Int) :
    Except CallError Balances :=
  if bal token src < amount then .error .tokenFailure
  else .ok fun t a =>
    if t = token then
      bal t a - (if a = src then amount else 0) + (if a = dst then amount else 0)
    else bal t a

/-- `require_auth` on the stated interface: aborts the call unless the
address authorized it. -/
def requireAuth (ctx : Ctx) (a : Addr) : Except CallError Unit :=
  if ctx.authorized a then .ok () else .error (.authFailure a)

/-- `LockAndReleaseContract::initialize(env, owner, fee_percentage)`.
(The Lean name carries a `Contract` suffix; the Rust name is `initialize`.) -/
def initializeContract (st : State) (owner : Addr) (fee_percentage : Int) :
    Except CallError (State × List Effect) :=
  if st.init then .error (.contractErr .ExistingValue)
  else
    .ok ({ st with
            owner := some owner
            config := some { fee_percentage := fee_percentage }
            init := true },
         [.setKey .Owner, .setKey .Config, .setKey .Init])

/-- `LockAndReleaseContract::add_admin(env, admin)`. -/
def add_admin (st : State) (ctx : Ctx) (admin : Addr) :
    Except CallError (State × List Effect) :=
  match st.owner with
  | none => .error .unwrapPanic
  | some owner =>
    match requireAuth ctx owner with
    | .error e => .error e
    | .ok () =>
      if st.admin.isSome then .error (.contractErr .InvalidAction)
      else
        .ok ({ st with admin := some { admin_address := admin } },
             [.setKey .Admin, .publish (.adminAdded admin)])

/-- `LockAndReleaseContract::remove_admin(env)`. -/
def remove_admin (st : State) (ctx : Ctx) :
    Except CallError (State × List Effect) :=
  match st.owner with
  | none => .error .unwrapPanic
  | some owner =>
    match requireAuth ctx owner with
    | .error e => .error e
    | .ok () =>
      if st.admin.isNone then .error (.contractErr .MissingValue)
      else
        .ok ({ st with admin := none },
             [.removeKey .Admin, .publish .adminRemoved])

/-- `LockAndReleaseContract::lock(env, user_address, from_token, dest_token,
in_amount, dest_chain, recipient_address)`, step for step in source order:
auth, admin-present check, `in_amount` check, fee computation from the
stored `Config`, `swaped_amount` check, the two transfers, event, and
finally the `LockData` write. -/
def lock (st : State) (ctx : Ctx) (bal : Balances) (user_address from_token : Addr)
    (dest_token : String) (in_amount : Int) (dest_chain : SorobanBytes)
    (recipient_address : String) : Except CallError Outcome :=
  match requireAuth ctx user_address with
  | .error e => .error e
  | .ok () =>
    if st.admin.isNone then .error (.contractErr .MissingValue)
    else if in_amount < 1 then .error (.contractErr .InvalidAction)
    else
      match st.config with
      | none => .error .unwrapPanic
      | some config =>
        match checkedMul in_amount config.fee_percentage with
        | none => .error .overflowPanic
        | some product =>
          let fee := Int.tdiv product 100
          match checkedSub in_amount fee with
          | none => .error .overflowPanic
          | some swaped_amount =>
            if swaped_amount < 1 then .error (.contractErr .InvalidAction)
            else
              match tokenTransfer bal from_token user_address ctx.contractAddr in_amount with
              | .error e => .error e
              | .ok bal1 =>
                match st.admin with
                | none => .error .unwrapPanic
                | some admin_data =>
                  match tokenTransfer bal1 from_token ctx.contractAddr
                      admin_data.admin_address swaped_amount with
                  | .error e => .error e
                  | .ok bal2 =>
                    let ld : LockData :=
                      { user_address := user_address
                        dest_token := dest_token
                        from_token := from_token
                        in_amount := in_amount
                        swaped_amount := swaped_amount
                        recipient_address := recipient_address
                        dest_chain := dest_chain }
                    .ok { state := { st with lockData := some ld }
                          balances := bal2
                          effects :=
                            [.transfer from_token user_address ctx.contractAddr in_amount,
                             .transfer from_token ctx.contractAddr
                               admin_data.admin_address swaped_amount,
                             .publish (.lockEvent user_address dest_token in_amount
                               swaped_amount ld),
                             .setKey .LockData] }

/-- `LockAndReleaseContract::release(env, amount, user, destination_token)`,
in source order: unwrap the `Admin` entry (with no prior presence check),
admin auth, balance query and check, transfer, event. -/
def release (st : State) (ctx : Ctx) (bal : Balances) (amount : Int)
    (user destination_token : Addr) : Except CallError Outcome :=
  match st.admin with
  | none => .error .unwrapPanic
  | some admin_data =>
    let admin := admin_data.admin_address
    match requireAuth ctx admin with
    | .error e => .error e
    | .ok () =>
      let admin_balance := bal destination_token admin
      if admin_balance < amount then .error (.contractErr .InvalidAction)
      else
        match tokenTransfer bal destination_token admin user amount with
        | .error e => .error e
        | .ok bal1 =>
          .ok { state := st
                balances := bal1
                effects :=
                  [.balanceQuery destination_token admin,
                   .transfer destination_token admin user amount,
                   .publish (.releaseEvent user destination_token amount)] }

/-- The state a governance call leaves behind under the host's atomic-abort
semantics: on error every write of the call is discarded. -/
def govResultState (st : State) (r : Except CallError (State × List Effect)) : State :=
  match r with
  | .ok (st', _) => st'
  | .error _ => st

/-- Whether an effect is a balance query on the token service. -/
def Effect.isBalanceQuery : Effect → Bool
  | .balanceQuery _ _ => true
  | _ => false

/-- Whether an effect is a storage write (set or remove of a key). -/
def Effect.isStorageWrite : Effect → Bool
  | .setKey _ => true
  | .removeKey _ => true
  | _ => false

/-- Whether an effect publishes a `ReleaseEvent`. -/
def Effect.isReleasePublish : Effect → Bool
  | .publish (.releaseEvent _ _ _) => true
  | _ => false

/-! ## Concrete instances used by witnesses and counterexamples

Addresses: `0` the contract, `1` the owner, `2` the admin, `3` the user;
token addresses `10` (lock side) and `11` (release side). -/

/-- A call context in which the admin (2) and the user (3) authorized. -/
def exCtx : Ctx := { authorized := fun a => a == 2 || a == 3, contractAddr := 0 }

/-- A call context in which only the owner (1) authorized. -/
def exCtxOwner : Ctx := { authorized := fun a => a == 1, contractAddr := 0 }

/-- User 3 holds 100 units of token 10; everything else is 0. -/
def exBal : Balances := fun t a => if t = 10 ∧ a = 3 then 100 else 0

/-- Admin 2 holds 50 units of token 11; everything else is 0. -/
def exBalRel : Balances := fun t a => if t = 11 ∧ a = 2 then 50 else 0

/-- All balances zero. -/
def exBalZero : Balances := fun _ _ => 0

/-- An initialized instance: owner 1, admin 2, fee_percentage 3. -/
def exState : State :=
  { init := true, owner := some 1, admin := some { admin_address := 2 },
    config := some { fee_percentage := 3 }, lockData := none }

/-- `exState` with fee_percentage 100. -/
def exState100 : State := { exState with config := some { fee_percentage := 100 } }

/-- `exState` with fee_percentage 99. -/
def exState99 : State := { exState with config := some { fee_percentage := 99 } }

/-- `exState` with fee_percentage -1. -/
def exStateNegFee : State := { exState with config := some { fee_percentage := -1 } }

/-- `exState` with no admin present. -/
def exStateNoAdmin : State := { exState with admin := none }

/-! ## Helper lemmas -/

theorem requireAuth_ok {ctx : Ctx} {a : Addr} {v : Unit}
    (h : requireAuth ctx a = .ok v) : ctx.authorized a = true := by
  unfold requireAuth at h
  split at h
  · assumption
  · exact absurd h (by simp)

theorem checkedMul_some {a b c : Int} (h : checkedMul a b = some c) :
    c = a * b ∧ inI128 (a * b) = true := by
  unfold checkedMul at h
  split at h
  · cases h; exact ⟨rfl, by assumption⟩
  · exact absurd h (by simp)

theorem checkedSub_some {a b c : Int} (h : checkedSub a b = some c) :
    c = a - b ∧ inI128 (a - b) = true := by
  unfold checkedSub at h
  split at h
  · cases h; exact ⟨rfl, by assumption⟩
  · exact absurd h (by simp)

/-- Inversion of a successful `lock`: the checks it passed, the two
transfers it performed, and the outcome it produced, with the fee written
as the source computes it. -/
theorem lock_ok_inv {st : State} {ctx : Ctx} {bal : Balances} {u ft : Addr}
    {dt : String} {amt : Int} {dc : SorobanBytes} {ra : String} {out : Outcome}
    (h : lock st ctx bal u ft dt amt dc ra = .ok out) :
    ∃ ad cfg sw bal1 bal2,
      sw = amt - Int.tdiv (amt * cfg.fee_percentage) 100 ∧
      st.admin = some ad ∧ st.config = some cfg ∧ ctx.authorized u = true ∧
      1 ≤ amt ∧
      inI128 (amt * cfg.fee_percentage) = true ∧
      inI128 sw = true ∧
      1 ≤ sw ∧
      tokenTransfer bal ft u ctx.contractAddr amt = .ok bal1 ∧
      tokenTransfer bal1 ft ctx.contractAddr ad.admin_address sw = .ok bal2 ∧
      out = ⟨{ st with lockData := some ⟨u, dt, ft, amt, sw, ra, dc⟩ }, bal2,
             [.transfer ft u ctx.contractAddr amt,
              .transfer ft ctx.contractAddr ad.admin_address sw,
              .publish (.lockEvent u dt amt sw ⟨u, dt, ft, amt, sw, ra, dc⟩),
              .setKey .LockData]⟩ := by
  unfold lock at h
  split at h
  · exact absurd h (by simp)
  next hauth =>
    split at h
    · exact absurd h (by simp)
    · split at h
      · exact absurd h (by simp)
      next hamt =>
        split at h
        · exact absurd h (by simp)
        next cfg hcfg =>
          split at h
          · exact absurd h (by simp)
          next product hmul =>
            obtain ⟨hprod, hmulIn⟩ := checkedMul_some hmul
            subst hprod
            dsimp only at h
            split at h
            · exact absurd h (by simp)
            next sw hsub =>
              obtain ⟨hsw, hsubIn⟩ := checkedSub_some hsub
              subst hsw
              split at h
              · exact absurd h (by simp)
              next hswpos =>
                split at h
                · exact absurd h (by simp)
                next bal1 ht1 =>
                  split at h
                  · simp_all
                  next ad had =>
                    split at h
                    · exact absurd h (by simp)
                    next bal2 ht2 =>
                      refine ⟨ad, cfg, _, bal1, bal2, rfl, had, hcfg,
                        requireAuth_ok hauth, by omega, hmulIn, hsubIn, by omega,
                        ht1, ht2, ?_⟩
                      cases h
                      rfl

/-- Inversion of a successful `release`: admin present and authorized,
its balance sufficient, and the outcome: the one transfer, the one event,
no storage write. -/
theorem release_ok_inv {st : State} {ctx : Ctx} {bal : Balances} {amt : Int}
    {user tok : Addr} {out : Outcome}
    (h : release st ctx bal amt user tok = .ok out) :
    ∃ ad bal1,
      st.admin = some ad ∧ ctx.authorized ad.admin_address = true ∧
      amt ≤ bal tok ad.admin_address ∧
      tokenTransfer bal tok ad.admin_address user amt = .ok bal1 ∧
      out = ⟨st, bal1,
             [.balanceQuery tok ad.admin_address,
              .transfer tok ad.admin_address user amt,
              .publish (.releaseEvent user tok amt)]⟩ := by
  unfold release at h
  split at h
  · exact absurd h (by simp)
  next ad had =>
    dsimp only at h
    split at h
    · exact absurd h (by simp)
    next hauth =>
      split at h
      · exact absurd h (by simp)
      next hbal =>
        split at h
        · exact absurd h (by simp)
        next bal1 ht =>
          refine ⟨ad, bal1, had, requireAuth_ok hauth, by omega, ht, ?_⟩
          cases h
          rfl

/-- `release` succeeds whenever the admin is present and authorized and its
balance covers the amount. -/
theorem release_ok_of_balance {st : State} {ctx : Ctx} {bal : Balances}
    {amt : Int} {user tok : Addr} {ad : AdminData}
    (hadmin : st.admin = some ad) (hauth : ctx.authorized ad.admin_address = true)
    (hbal : amt ≤ bal tok ad.admin_address) :
    ∃ out, release st ctx bal amt user tok = .ok out := by
  unfold release
  rw [hadmin]
  dsimp only
  simp only [requireAuth, hauth, if_true]
  rw [if_neg (by omega)]
  unfold tokenTransfer
  rw [if_neg (by omega)]
  exact ⟨_, rfl⟩

/-- `lock` succeeds whenever its checks pass and the balances cover the two
transfers: the depositor is not the contract address, holds at least
`in_amount`, the contract's own balance is nonnegative, and the fee is
nonnegative (which holds for any `fee_percentage ≥ 0`). -/
theorem lock_ok_of {st : State} {ctx : Ctx} {bal : Balances} {u ft : Addr}
    {dt : String} {amt : Int} {dc : SorobanBytes} {ra : String}
    {ad : AdminData} {fp : Int}
    (hadmin : st.admin = some ad) (hcfg : st.config = some ⟨fp⟩)
    (hauth : ctx.authorized u = true) (hamt : 1 ≤ amt) (hfp : 0 ≤ fp)
    (hin1 : inI128 (amt * fp) = true)
    (hin2 : inI128 (amt - Int.tdiv (amt * fp) 100) = true)
    (hsw : 1 ≤ amt - Int.tdiv (amt * fp) 100)
    (hub : amt ≤ bal ft u)
    (huc : u ≠ ctx.contractAddr)
    (hcb : 0 ≤ bal ft ctx.contractAddr) :
    ∃ out, lock st ctx bal u ft dt amt dc ra = .ok out ∧
      out.state.lockData =
        some ⟨u, dt, ft, amt, amt - Int.tdiv (amt * fp) 100, ra, dc⟩ := by
  have hfee : 0 ≤ Int.tdiv (amt * fp) 100 :=
    Int.tdiv_nonneg (mul_nonneg (by omega) hfp) (by norm_num)
  unfold lock
  rw [hadmin]
  simp only [requireAuth, hauth, if_true, Option.isNone_some, Bool.false_eq_true,
    if_false]
  rw [if_neg (by omega)]
  rw [hcfg]
  simp only [checkedMul, hin1, if_true]
  rw [show checkedSub amt (Int.tdiv (amt * fp) 100) =
        some (amt - Int.tdiv (amt * fp) 100) by simp [checkedSub, hin2]]
  dsimp only
  rw [if_neg (by omega)]
  rw [show tokenTransfer bal ft u ctx.contractAddr amt =
        .ok fun t a =>
          if t = ft then
            bal t a - (if a = u then amt else 0) + (if a = ctx.contractAddr then amt else 0)
          else bal t a
      by unfold tokenTransfer; rw [if_neg (by omega)]]
  dsimp only
  unfold tokenTransfer
  split
  next e heq =>
    exfalso
    split at heq
    next hlt =>
      dsimp only at hlt
      rw [if_pos rfl, if_neg (fun hc => huc hc.symm), if_pos rfl] at hlt
      omega
    · exact absurd heq (by simp)
  · exact ⟨_, rfl, rfl⟩

/-- Inversion of a successful `tokenTransfer`. -/
theorem tokenTransfer_ok_inv {bal : Balances} {token src dst : Addr}
    {amount : Int} {bal1 : Balances}
    (h : tokenTransfer bal token src dst amount = .ok bal1) :
    amount ≤ bal token src ∧
    bal1 = fun t a =>
      if t = token then
        bal t a - (if a = src then amount else 0) + (if a = dst then amount else 0)
      else bal t a := by
  unfold tokenTransfer at h
  split at h
  · exact absurd h (by simp)
  next hn =>
    cases h
    exact ⟨by omega, rfl⟩

/-- Inversion of a successful `add_admin`. -/
theorem add_admin_ok_inv {st : State} {ctx : Ctx} {a : Addr}
    {r : State × List Effect} (h : add_admin st ctx a = .ok r) :
    ∃ ow, st.owner = some ow ∧ ctx.authorized ow = true ∧ st.admin = none ∧
      r = ({ st with admin := some ⟨a⟩ },
           [.setKey .Admin, .publish (.adminAdded a)]) := by
  unfold add_admin at h
  split at h
  · exact absurd h (by simp)
  next ow how =>
    split at h
    · exact absurd h (by simp)
    next hauth =>
      split at h
      · exact absurd h (by simp)
      next hsome =>
        cases h
        exact ⟨ow, how, requireAuth_ok hauth,
          Option.not_isSome_iff_eq_none.mp hsome, rfl⟩

/-- Inversion of a successful `remove_admin`. -/
theorem remove_admin_ok_inv {st : State} {ctx : Ctx}
    {r : State × List Effect} (h : remove_admin st ctx = .ok r) :
    ∃ ow, st.owner = some ow ∧ ctx.authorized ow = true ∧ st.admin ≠ none ∧
      r = ({ st with admin := none },
           [.removeKey .Admin, .publish .adminRemoved]) := by
  unfold remove_admin at h
  split at h
  · exact absurd h (by simp)
  next ow how =>
    split at h
    · exact absurd h (by simp)
    next hauth =>
      split at h
      · exact absurd h (by simp)
      next hnone =>
        cases h
        exact ⟨ow, how, requireAuth_ok hauth,
          fun hc => hnone (by simp [hc]), rfl⟩

/-- The five storage keys, as a list. -/
def allDataKeys : List DataKey := [.Init, .Owner, .Admin, .LockData, .Config]

theorem allDataKeys_complete : ∀ k : DataKey, k ∈ allDataKeys := by decide

/-! ## Claim theorems -/

/-- C1: for every `lock` call with the admin present, the caller authorized
and `in_amount ≥ 1`, with `fee_percentage` the value in the stored `Config`:
(1) every successful run stores a `LockData` whose `swaped_amount` is
`in_amount - in_amount * fee_percentage / 100` (truncating integer
division) with `swaped_amount ≥ 1`; (2) whenever that quantity is below 1
the call fails with InvalidAction; (3) whenever it is at least 1 and the
balances cover the two transfers the call succeeds with that stored value
(so `fee_percentage = 100, in_amount = 1` fails while
`fee_percentage = 99, in_amount = 1` yields fee 0 and succeeds). -/
theorem lock_fee_formula (st : State) (ctx : Ctx) (bal : Balances)
    (u ft : Addr) (dt : String) (amt : Int) (dc : SorobanBytes) (ra : String)
    (ad : AdminData) (fp : Int)
    (hadmin : st.admin = some ad) (hcfg : st.config = some ⟨fp⟩)
    (hauth : ctx.authorized u = true) (hamt : 1 ≤ amt) :
    (∀ out, lock st ctx bal u ft dt amt dc ra = .ok out →
        out.state.lockData =
          some ⟨u, dt, ft, amt, amt - Int.tdiv (amt * fp) 100, ra, dc⟩ ∧
        1 ≤ amt - Int.tdiv (amt * fp) 100) ∧
    (inI128 (amt * fp) = true → inI128 (amt - Int.tdiv (amt * fp) 100) = true →
      amt - Int.tdiv (amt * fp) 100 < 1 →
      lock st ctx bal u ft dt amt dc ra = .error (.contractErr .InvalidAction)) ∧
    (0 ≤ fp → inI128 (amt * fp) = true →
      inI128 (amt - Int.tdiv (amt * fp) 100) = true →
      1 ≤ amt - Int.tdiv (amt * fp) 100 → amt ≤ bal ft u →
      u ≠ ctx.contractAddr → 0 ≤ bal ft ctx.contractAddr →
      ∃ out, lock st ctx bal u ft dt amt dc ra = .ok out ∧
        out.state.lockData =
          some ⟨u, dt, ft, amt, amt - Int.tdiv (amt * fp) 100, ra, dc⟩) := by
  refine ⟨?_, ?_, ?_⟩
  · intro out h
    obtain ⟨ad', cfg, sw, bal1, bal2, hswdef, had', hcfg', -, -, -, -, hsw1, -, -, hout⟩ :=
      lock_ok_inv h
    rw [hcfg] at hcfg'
    injection hcfg' with hc
    subst hc
    subst hswdef
    subst hout
    exact ⟨rfl, hsw1⟩
  · intro hin1 hin2 hlt
    unfold lock
    rw [hadmin]
    simp only [requireAuth, hauth, if_true, Option.isNone_some, Bool.false_eq_true,
      if_false]
    rw [if_neg (by omega)]
    rw [hcfg]
    simp only [checkedMul, hin1, if_true]
    rw [show checkedSub amt (Int.tdiv (amt * fp) 100) =
          some (amt - Int.tdiv (amt * fp) 100) by simp [checkedSub, hin2]]
    dsimp only
    rw [if_pos hlt]
  · intro h0 hin1 hin2 hsw hub huc hcb
    exact lock_ok_of hadmin hcfg hauth hamt h0 hin1 hin2 hsw hub huc hcb

set_option maxRecDepth 8000 in
/-- Witness for C1: at `fee_percentage = 100`, `in_amount = 1` the lock
fails with InvalidAction; at `fee_percentage = 99`, `in_amount = 1` it
succeeds and stores `swaped_amount = 1` (fee 0). -/
theorem lock_fee_formula_witness :
    lock exState100 exCtx exBal 3 10 "ETH" 1 [1] "r"
      = .error (.contractErr .InvalidAction) ∧
    (∃ out, lock exState99 exCtx exBal 3 10 "ETH" 1 [1] "r" = .ok out ∧
      out.state.lockData = some ⟨3, "ETH", 10, 1, 1, "r", [1]⟩) := by
  constructor
  · exact (lock_fee_formula exState100 exCtx exBal 3 10 "ETH" 1 [1] "r"
      ⟨2⟩ 100 rfl rfl (by decide) (by norm_num)).2.1 (by decide) (by decide)
      (by decide)
  · obtain ⟨out, h1, h2⟩ := (lock_fee_formula exState99 exCtx exBal 3 10 "ETH" 1 [1] "r"
      ⟨2⟩ 99 rfl rfl (by decide) (by norm_num)).2.2 (by norm_num) (by decide)
      (by decide) (by decide) (by decide) (by decide) (by decide)
    exact ⟨out, h1, by rw [h2]; decide⟩

/-- C2 (amended): the contract's public surface is exactly `initialize`,
`add_admin`, `remove_admin`, `lock` and `release`; it exposes no `pause` or
`unpause` operation and its storage has no `Paused` key, so no entry point
performs a pause check. -/
theorem no_pause_mechanism :
    contractEntryPoints = ["initialize", "add_admin", "remove_admin", "lock", "release"] ∧
    "pause" ∉ contractEntryPoints ∧
    "unpause" ∉ contractEntryPoints ∧
    (∀ k : DataKey, dataKeyName k ≠ "Paused") := by
  exact ⟨rfl, by decide, by decide, by decide⟩

/-- Counterexample to C2 as stated: the contract exposes no `pause` (nor
`unpause`) operation, and no storage key is a `Paused` marker. -/
theorem pause_not_exposed_cex :
    "pause" ∉ contractEntryPoints ∧ "unpause" ∉ contractEntryPoints ∧
    "Paused" ∉ allDataKeys.map dataKeyName := by
  exact ⟨by decide, by decide, by decide⟩

/-- C3 (amended): the contract keeps no reentrancy guard: no storage key is
a `ReentrancyGuard` marker, a successful `lock` performs exactly one
storage write (the `LockData` snapshot, not a guard), and a successful
`release` performs none — so trivially no execution leaves a guard set. -/
theorem no_reentrancy_guard :
    (∀ k : DataKey, dataKeyName k ≠ "ReentrancyGuard") ∧
    (∀ st ctx bal u ft dt amt dc ra out,
       lock st ctx bal u ft dt amt dc ra = .ok out →
         out.effects.filter Effect.isStorageWrite = [.setKey .LockData]) ∧
    (∀ st ctx bal amt u tok out,
       release st ctx bal amt u tok = .ok out →
         out.effects.filter Effect.isStorageWrite = []) := by
  refine ⟨by decide, ?_, ?_⟩
  · intro st ctx bal u ft dt amt dc ra out h
    obtain ⟨ad, cfg, sw, bal1, bal2, -, -, -, -, -, -, -, -, -, -, hout⟩ :=
      lock_ok_inv h
    subst hout
    rfl
  · intro st ctx bal amt u tok out h
    obtain ⟨ad, bal1, -, -, -, -, hout⟩ := release_ok_inv h
    subst hout
    rfl

set_option maxRecDepth 8000 in
/-- Counterexample to C3 as stated: a successful `lock`'s trace begins with
a token transfer, not a guard acquisition, its only storage write is the
final `LockData` one, and no storage key is a `ReentrancyGuard` marker. -/
theorem reentrancy_guard_cex :
    (lock exState exCtx exBal 3 10 "ETH" 100 [1] "r").map Outcome.effects =
      .ok [.transfer 10 3 0 100, .transfer 10 0 2 97,
           .publish (.lockEvent 3 "ETH" 100 97 ⟨3, "ETH", 10, 100, 97, "r", [1]⟩),
           .setKey .LockData] ∧
    "ReentrancyGuard" ∉ allDataKeys.map dataKeyName := by
  exact ⟨rfl, by decide⟩

/-- C4 (amended): in every successful `lock` the `LockData` storage write is
the last effect, strictly after the two external token transfers and the
event emission (interaction precedes the state write). -/
theorem lockdata_write_follows_transfers (st : State) (ctx : Ctx)
    (bal : Balances) (u ft : Addr) (dt : String) (amt : Int)
    (dc : SorobanBytes) (ra : String) (out : Outcome)
    (h : lock st ctx bal u ft dt amt dc ra = .ok out) :
    ∃ ad sw,
      st.admin = some ad ∧
      out.effects =
        [.transfer ft u ctx.contractAddr amt,
         .transfer ft ctx.contractAddr ad.admin_address sw,
         .publish (.lockEvent u dt amt sw ⟨u, dt, ft, amt, sw, ra, dc⟩),
         .setKey .LockData] := by
  obtain ⟨ad, cfg, sw, bal1, bal2, -, had, -, -, -, -, -, -, -, -, hout⟩ :=
    lock_ok_inv h
  subst hout
  exact ⟨ad, sw, had, rfl⟩

set_option maxRecDepth 8000 in
/-- Witness for C4: a concrete successful lock, with its effect trace. -/
theorem lockdata_write_follows_transfers_witness :
    ∃ out, lock exState exCtx exBal 3 10 "ETH" 100 [1] "r" = .ok out ∧
      ∃ ad sw, exState.admin = some ad ∧
        out.effects =
          [.transfer 10 3 0 100,
           .transfer 10 0 ad.admin_address sw,
           .publish (.lockEvent 3 "ETH" 100 sw ⟨3, "ETH", 10, 100, sw, "r", [1]⟩),
           .setKey .LockData] := by
  refine ⟨_, rfl, ?_⟩
  exact lockdata_write_follows_transfers exState exCtx exBal 3 10 "ETH" 100
    [1] "r" _ rfl

set_option maxRecDepth 8000 in
/-- Counterexample to C4 as stated: in this successful lock the `LockData`
write is the last effect, after both transfers — not before them. -/
theorem lockdata_write_order_cex :
    (lock exState exCtx exBal 3 10 "ETH" 100 [1] "r").map Outcome.effects =
      .ok [.transfer 10 3 0 100, .transfer 10 0 2 97,
           .publish (.lockEvent 3 "ETH" 100 97 ⟨3, "ETH", 10, 100, 97, "r", [1]⟩),
           .setKey .LockData] ∧
    [Effect.transfer 10 3 0 100, Effect.transfer 10 0 2 97,
     Effect.publish (.lockEvent 3 "ETH" 100 97 ⟨3, "ETH", 10, 100, 97, "r", [1]⟩),
     Effect.setKey DataKey.LockData].head? = some (.transfer 10 3 0 100) ∧
    Effect.setKey DataKey.LockData ∉
      [Effect.transfer 10 3 0 100, Effect.transfer 10 0 2 97,
       Effect.publish (.lockEvent 3 "ETH" 100 97 ⟨3, "ETH", 10, 100, 97, "r", [1]⟩)] := by
  exact ⟨rfl, rfl, by decide⟩

/-- C5 (amended): `lock` performs no pre-flight balance query: when every
prior check passes but the depositor's balance is below `in_amount`, the
call fails inside the token transfer itself with the token-service failure
(not the contract's InvalidAction), and no successful `lock` trace contains
a balance query at all. -/
theorem lock_no_preflight_check (st : State) (ctx : Ctx) (bal : Balances)
    (u ft : Addr) (dt : String) (amt : Int) (dc : SorobanBytes) (ra : String)
    (ad : AdminData) (fp : Int)
    (hadmin : st.admin = some ad) (hcfg : st.config = some ⟨fp⟩)
    (hauth : ctx.authorized u = true) (hamt : 1 ≤ amt)
    (hin1 : inI128 (amt * fp) = true)
    (hin2 : inI128 (amt - Int.tdiv (amt * fp) 100) = true)
    (hsw : 1 ≤ amt - Int.tdiv (amt * fp) 100)
    (hbal : bal ft u < amt) :
    lock st ctx bal u ft dt amt dc ra = .error .tokenFailure ∧
    CallError.tokenFailure ≠ .contractErr .InvalidAction ∧
    (∀ st2 ctx2 bal2 u2 ft2 dt2 amt2 dc2 ra2 out,
       lock st2 ctx2 bal2 u2 ft2 dt2 amt2 dc2 ra2 = .ok out →
         out.effects.filter Effect.isBalanceQuery = []) := by
  refine ⟨?_, ?_, ?_⟩
  case refine_2 => intro h; cases h
  · unfold lock
    rw [hadmin]
    simp only [requireAuth, hauth, if_true, Option.isNone_some, Bool.false_eq_true,
      if_false]
    rw [if_neg (by omega)]
    rw [hcfg]
    simp only [checkedMul, hin1, if_true]
    rw [show checkedSub amt (Int.tdiv (amt * fp) 100) =
          some (amt - Int.tdiv (amt * fp) 100) by simp [checkedSub, hin2]]
    dsimp only
    rw [if_neg (by omega)]
    unfold tokenTransfer
    rw [if_pos hbal]
  · intro st2 ctx2 bal2 u2 ft2 dt2 amt2 dc2 ra2 out h
    obtain ⟨ad2, cfg2, sw2, b1, b2, -, -, -, -, -, -, -, -, -, -, hout⟩ :=
      lock_ok_inv h
    subst hout
    rfl

set_option maxRecDepth 8000 in
/-- Witness for C5: with all balances zero, the lock that passes every
contract-side check fails with the token-service failure. -/
theorem lock_no_preflight_check_witness :
    lock exState exCtx exBalZero 3 10 "ETH" 100 [1] "r" = .error .tokenFailure := by
  exact (lock_no_preflight_check exState exCtx exBalZero 3 10 "ETH" 100 [1] "r"
    ⟨2⟩ 3 rfl rfl (by decide) (by norm_num) (by decide) (by decide) (by decide)
    (by decide)).1

set_option maxRecDepth 8000 in
/-- Counterexample to C5 as stated: the depositor's balance (0) is below
`in_amount` (100), yet the failure is the token service's, not the
contract's InvalidAction, because no pre-flight balance check exists. -/
theorem lock_no_preflight_cex :
    lock exState exCtx exBalZero 3 10 "ETH" 100 [1] "r" = .error .tokenFailure ∧
    CallError.tokenFailure ≠ .contractErr .InvalidAction := by
  exact ⟨rfl, by decide⟩

/-- C6: `initialize` is callable exactly once per instance: on a fresh
instance it records Owner and Config and sets the Init marker; from any
state with Init set every further `initialize` call, for all arguments,
fails with ExistingValue (the code the contract reserves for
already-initialized, the spec's AlreadyInitialized) leaving the state
unchanged — and no other entry point ever clears Init. -/
theorem initialize_exactly_once (st : State) (o1 : Addr) (f1 : Int)
    (hfresh : st.init = false) :
    (∃ st1 eff, initializeContract st o1 f1 = .ok (st1, eff) ∧
       st1.init = true ∧ st1.owner = some o1 ∧ st1.config = some ⟨f1⟩) ∧
    (∀ st2 : State, st2.init = true →
       (∀ o2 f2, initializeContract st2 o2 f2 = .error (.contractErr .ExistingValue) ∧
          govResultState st2 (initializeContract st2 o2 f2) = st2) ∧
       (∀ ctx a r, add_admin st2 ctx a = .ok r → r.1.init = true) ∧
       (∀ ctx r, remove_admin st2 ctx = .ok r → r.1.init = true) ∧
       (∀ ctx bal u ft dt amt dc ra out,
          lock st2 ctx bal u ft dt amt dc ra = .ok out → out.state.init = true) ∧
       (∀ ctx bal amt u tok out,
          release st2 ctx bal amt u tok = .ok out → out.state.init = true)) := by
  constructor
  · exact ⟨{ st with owner := some o1, config := some ⟨f1⟩, init := true },
      [.setKey .Owner, .setKey .Config, .setKey .Init],
      by unfold initializeContract; rw [if_neg (by simp [hfresh])],
      rfl, rfl, rfl⟩
  · intro st2 h2
    refine ⟨?_, ?_, ?_, ?_, ?_⟩
    · intro o2 f2
      constructor
      · unfold initializeContract
        rw [if_pos h2]
      · simp [govResultState, initializeContract, h2]
    · intro ctx a r h
      obtain ⟨ow, -, -, -, hr⟩ := add_admin_ok_inv h
      rw [hr]
      exact h2
    · intro ctx r h
      obtain ⟨ow, -, -, -, hr⟩ := remove_admin_ok_inv h
      rw [hr]
      exact h2
    · intro ctx bal u ft dt amt dc ra out h
      obtain ⟨ad, cfg, sw, b1, b2, -, -, -, -, -, -, -, -, -, -, hout⟩ :=
        lock_ok_inv h
      subst hout
      exact h2
    · intro ctx bal amt u tok out h
      obtain ⟨ad, b1, -, -, -, -, hout⟩ := release_ok_inv h
      subst hout
      exact h2

/-- Witness for C6: a fresh instance accepts `initialize(1, 3)` and records
owner and fee configuration; the resulting state has Init set. -/
theorem initialize_exactly_once_witness :
    ∃ st1 eff, initializeContract State.fresh 1 3 = .ok (st1, eff) ∧
      st1.init = true ∧ st1.owner = some 1 ∧ st1.config = some ⟨3⟩ := by
  exact (initialize_exactly_once State.fresh 1 3 rfl).1

/-- C7 (amended): with the admin present and authorized, `release` of `A`
succeeds iff the admin's balance in the destination token is at least `A`;
on success exactly one ReleaseEvent with `(user, destination_token, A)` is
emitted, and — provided the user is distinct from the admin — the user's
balance grows by exactly `A` and the admin's shrinks by exactly `A` (a
self-release, `user = admin`, leaves the shared balance unchanged). -/
theorem release_balance_effects (st : State) (ctx : Ctx) (bal : Balances)
    (amt : Int) (user tok adAddr : Addr)
    (hadmin : st.admin = some ⟨adAddr⟩)
    (hauth : ctx.authorized adAddr = true) :
    ((∃ out, release st ctx bal amt user tok = .ok out) ↔ amt ≤ bal tok adAddr) ∧
    (∀ out, release st ctx bal amt user tok = .ok out →
       (user ≠ adAddr →
          out.balances tok user = bal tok user + amt ∧
          out.balances tok adAddr = bal tok adAddr - amt) ∧
       (user = adAddr → out.balances tok user = bal tok user) ∧
       out.effects.filter Effect.isReleasePublish =
         [.publish (.releaseEvent user tok amt)]) := by
  constructor
  · constructor
    · intro ⟨out, h⟩
      obtain ⟨ad, b1, had, -, hle, -, -⟩ := release_ok_inv h
      rw [hadmin] at had
      injection had with had2
      subst had2
      exact hle
    · intro hle
      exact release_ok_of_balance hadmin hauth hle
  · intro out h
    obtain ⟨ad, b1, had, -, hle, ht, hout⟩ := release_ok_inv h
    rw [hadmin] at had
    injection had with had2
    subst had2
    obtain ⟨-, hb1⟩ := tokenTransfer_ok_inv ht
    subst hout
    subst hb1
    refine ⟨?_, ?_, rfl⟩
    · intro hne
      constructor
      · simp [if_pos rfl, if_neg hne]
      · simp only [if_true]
        rw [if_neg (fun hc => hne hc.symm)]
        ring
    · intro heq
      subst heq
      simp

/-- Witness for C7: admin 2 holds 50 of token 11; releasing 20 to user 3
succeeds while releasing 60 does not. -/
theorem release_balance_effects_witness :
    (∃ out, release exState exCtx exBalRel 20 3 11 = .ok out) ∧
    ¬ (∃ out, release exState exCtx exBalRel 60 3 11 = .ok out) := by
  constructor
  · exact (release_balance_effects exState exCtx exBalRel 20 3 11 2 rfl rfl).1.mpr
      (by decide)
  · intro h
    exact absurd ((release_balance_effects exState exCtx exBalRel 60 3 11 2
      rfl rfl).1.mp h) (by decide)

/-- Counterexample to C7 as stated: a self-release (`user = admin = 2`) of
20 succeeds, but the single balance does not increase by 20 nor decrease by
20 — it stays at 50. -/
theorem release_self_transfer_cex :
    (release exState exCtx exBalRel 20 2 11).map (fun o => o.balances 11 2) =
      .ok 50 ∧
    ¬ ((50 : Int) = 50 + 20) ∧ ¬ ((50 : Int) = 50 - 20) := by
  exact ⟨rfl, by decide, by decide⟩

/-- C8 (amended): with the owner present and authorized: `add_admin` fails
with InvalidAction — not the ExistingValue code the contract reserves for
already-present data — when an admin is already set; `remove_admin` fails
with MissingValue (not a distinct not-found code) when none is set; and
after a successful `remove_admin` an authorized `lock` fails with
MissingValue. -/
theorem admin_role_error_codes (st : State) (ctx : Ctx) (ow newAdmin : Addr)
    (adv : AdminData)
    (howner : st.owner = some ow) (hauth : ctx.authorized ow = true) :
    (st.admin = some adv →
       add_admin st ctx newAdmin = .error (.contractErr .InvalidAction)) ∧
    (st.admin = none →
       remove_admin st ctx = .error (.contractErr .MissingValue)) ∧
    (∀ r, remove_admin st ctx = .ok r →
       ∀ ctx2 bal u ft dt amt dc ra, ctx2.authorized u = true →
         lock r.1 ctx2 bal u ft dt amt dc ra = .error (.contractErr .MissingValue)) := by
  refine ⟨?_, ?_, ?_⟩
  · intro h
    unfold add_admin
    rw [howner]
    simp [requireAuth, hauth, h]
  · intro h
    unfold remove_admin
    rw [howner]
    simp [requireAuth, hauth, h]
  · intro r h ctx2 bal u ft dt amt dc ra hauth2
    obtain ⟨ow2, -, -, -, hr⟩ := remove_admin_ok_inv h
    rw [hr]
    unfold lock
    simp [requireAuth, hauth2]

/-- Witness for C8: concrete instances of the three behaviours. -/
theorem admin_role_error_codes_witness :
    add_admin exState exCtxOwner 5 = .error (.contractErr .InvalidAction) ∧
    remove_admin exStateNoAdmin exCtxOwner = .error (.contractErr .MissingValue) := by
  exact ⟨(admin_role_error_codes exState exCtxOwner 1 5 ⟨2⟩ rfl rfl).1 rfl,
    (admin_role_error_codes exStateNoAdmin exCtxOwner 1 5 ⟨2⟩ rfl rfl).2.1 rfl⟩

/-- Counterexample to C8 as stated: with an admin present, `add_admin`
fails with InvalidAction, which is not the contract's already-exists code
(ExistingValue); with none present, `remove_admin` fails with MissingValue,
the very code `lock` uses for the same absence. -/
theorem admin_error_code_cex :
    add_admin exState exCtxOwner 5 = .error (.contractErr .InvalidAction) ∧
    remove_admin exStateNoAdmin exCtxOwner = .error (.contractErr .MissingValue) ∧
    ContractError.InvalidAction ≠ ContractError.ExistingValue := by
  exact ⟨rfl, rfl, by decide⟩

/-- C9: with no admin set, `release` aborts by unwrapping the missing Admin
entry — an uncategorized panic, not a contract error code — while `lock`
in the same situation reports the categorized MissingValue. -/
theorem release_unwrap_panic_on_missing_admin (st : State) (ctx : Ctx)
    (bal : Balances) (amt : Int) (user tok u2 ft : Addr) (dt : String)
    (dc : SorobanBytes) (ra : String)
    (hnoadmin : st.admin = none) (hauth : ctx.authorized u2 = true) :
    release st ctx bal amt user tok = .error .unwrapPanic ∧
    lock st ctx bal u2 ft dt amt dc ra = .error (.contractErr .MissingValue) ∧
    (∀ c : ContractError, CallError.unwrapPanic ≠ .contractErr c) := by
  refine ⟨?_, ?_, fun c h => by cases h⟩
  · unfold release
    rw [hnoadmin]
  · unfold lock
    simp [requireAuth, hauth, hnoadmin]

/-- Witness for C9: the concrete admin-less instance. -/
theorem release_unwrap_panic_witness :
    release exStateNoAdmin exCtx exBalRel 20 3 11 = .error .unwrapPanic ∧
    lock exStateNoAdmin exCtx exBal 3 10 "ETH" 20 [1] "r" =
      .error (.contractErr .MissingValue) := by
  have h := release_unwrap_panic_on_missing_admin exStateNoAdmin exCtx exBal 20
    3 11 3 10 "ETH" [1] "r" rfl rfl
  exact ⟨by rw [show (release exStateNoAdmin exCtx exBalRel 20 3 11) =
      (release exStateNoAdmin exCtx exBal 20 3 11) from rfl]; exact h.1, h.2.1⟩

/-- C10 (amended): `initialize` performs no range validation on
`fee_percentage` — any value, negative or above 100, is stored unchanged —
and with a negative stored `fee_percentage` every successful `lock`
computes a nonpositive fee and a `swaped_amount` at least `in_amount`
(truncating division makes the fee 0, not negative, whenever
`in_amount * |fee_percentage| < 100`). -/
theorem fee_percentage_unvalidated (st : State) (o : Addr) (fp : Int)
    (hfresh : st.init = false) :
    (∃ st1 eff, initializeContract st o fp = .ok (st1, eff) ∧
       st1.config = some ⟨fp⟩) ∧
    (fp < 0 →
      ∀ st2 ctx bal u ft dt amt dc ra out,
        st2.config = some ⟨fp⟩ →
        lock st2 ctx bal u ft dt amt dc ra = .ok out →
          Int.tdiv (amt * fp) 100 ≤ 0 ∧
          out.state.lockData =
            some ⟨u, dt, ft, amt, amt - Int.tdiv (amt * fp) 100, ra, dc⟩ ∧
          amt ≤ amt - Int.tdiv (amt * fp) 100) := by
  constructor
  · exact ⟨{ st with owner := some o, config := some ⟨fp⟩, init := true },
      [.setKey .Owner, .setKey .Config, .setKey .Init],
      by unfold initializeContract; rw [if_neg (by simp [hfresh])], rfl⟩
  · intro hneg st2 ctx bal u ft dt amt dc ra out hcfg h
    obtain ⟨ad, cfg, sw, b1, b2, hswdef, -, hcfg', -, hamt, -, -, -, -, -, hout⟩ :=
      lock_ok_inv h
    rw [hcfg] at hcfg'
    injection hcfg' with hc
    subst hc
    dsimp only at hswdef
    have hmn : amt * fp ≤ 0 :=
      mul_nonpos_iff.mpr (Or.inl ⟨by omega, by omega⟩)
    have h1 : 0 ≤ Int.tdiv (-(amt * fp)) 100 :=
      Int.tdiv_nonneg (by omega) (by norm_num)
    have h2 : Int.tdiv (-(amt * fp)) 100 = -Int.tdiv (amt * fp) 100 :=
      Int.neg_tdiv _ _
    have hfee : Int.tdiv (amt * fp) 100 ≤ 0 := by omega
    subst hswdef
    subst hout
    exact ⟨hfee, rfl, by omega⟩

/-- Witness for C10: a fresh instance accepts `fee_percentage = -1` and
stores it unchanged. -/
theorem fee_percentage_unvalidated_witness :
    ∃ st1 eff, initializeContract State.fresh 1 (-1) = .ok (st1, eff) ∧
      st1.config = some ⟨-1⟩ := by
  exact (fee_percentage_unvalidated State.fresh 1 (-1) rfl).1

set_option maxRecDepth 8000 in
/-- Counterexample to C10 as stated: with stored `fee_percentage = -1` and
`in_amount = 1`, the lock succeeds with `swaped_amount = 1`: the fee
`1 * -1 / 100` truncates to 0 — not a negative fee — and `swaped_amount`
equals `in_amount` rather than strictly exceeding it. -/
theorem negative_fee_cex :
    (initializeContract State.fresh 1 (-1)).map (fun p => p.1.config) =
      .ok (some ⟨-1⟩) ∧
    (lock exStateNegFee exCtx exBal 3 10 "ETH" 1 [1] "r").map
        (fun o => o.state.lockData) =
      .ok (some ⟨3, "ETH", 10, 1, 1, "r", [1]⟩) ∧
    ¬ ((1 : Int) - 1 < 0) ∧ ¬ ((1 : Int) < 1) := by
  exact ⟨rfl, rfl, by decide, by decide⟩

end LockRelease
